import Mathlib

/-! DOGM128 display driver: refresh pass and enable/disable gate.

A shallow embedding of `dogm128.c` / `dogm128.h`.

* Bytes (`u8`, `char`, `unsigned char`) are natural numbers; every store into the
  scratch buffer is reduced modulo 256.
* Memory buffers are lists of bytes.  Every indexed access is checked and the
  embedding returns `none` when an access would fall outside its buffer.
* The SPI bus and the A0 control line are an event log (`bus`).  Each `spi_write`
  takes its return code from a script (`spi_status`); an exhausted script means
  success (0).
* The delayed work item is one pending bit (`work_pending`) together with the
  number of calls made to `dogm128_queue` (`queue_calls`).
-/

namespace Dogm128

/-! ## Constants (dogm128.h, dogm128.c) -/

def DOGM_RES_X : Nat := 128
def DOGM_RES_Y : Nat := 64
def DOGM_RAM_SIZE : Nat := (DOGM_RES_X * DOGM_RES_Y) / 8
def USER_BUFF_SIZE : Nat := 128
def DOGM_CMD_SET_PAGE_ADDR : Nat := 0xb0
def DOGM_CMD_SET_COL_ADDR_H : Nat := 0x10
def DOGM_CMD_SET_COL_ADDR_L : Nat := 0x00

/-! ## State -/

/-- What the driver does to the outside world during a refresh pass. -/
inductive BusEvent where
  /-- The call `set_a0(a0)`: drive the mode-select line (0 command, 1 data). -/
  | set_a0 (a0 : Nat)
  /-- The call `spi_write(dev, buf, len)` with the `len` bytes handed over and the
  return code the transport gave back. -/
  | spi_write (data : List Nat) (status : Int)
  deriving DecidableEq, Repr

/-- The globals of `dogm128.c` that the refresh machinery touches. -/
structure Driver where
  /-- Field `dogm128_dev.spi_device`; `none` is `NULL`. -/
  spi_device : Option Nat
  /-- Field `dogm128_dev.user_buff`, the scratch buffer of `USER_BUFF_SIZE` bytes. -/
  user_buff : List Nat
  /-- The exported bitmap. -/
  dogm128_buffer : List Nat
  /-- The copy of the frame that was transmitted last. -/
  dogm128_cache : List Nat
  /-- The gate flag (0 free, non-zero held). -/
  dogm128_updating : Nat
  /-- Whether `dogm128_work` is queued and has not fired yet. -/
  work_pending : Bool
  /-- Number of calls of `dogm128_queue` so far. -/
  queue_calls : Nat
  /-- Log of control-line and bus activity, oldest first. -/
  bus : List BusEvent
  /-- Return codes of the coming `spi_write` calls (negative is an error). -/
  spi_status : List Int
  deriving DecidableEq, Repr

/-! ## Checked memory primitives -/

/-- Checked byte store `buf[i] = v`. -/
def store (buf : List Nat) (i v : Nat) : Option (List Nat) :=
  if i < buf.length then some (buf.set i (v % 256)) else none

/-- Checked `memset(buf, v, n)`. -/
def memset (buf : List Nat) (v n : Nat) : Option (List Nat) :=
  if n ≤ buf.length then some (List.replicate n (v % 256) ++ buf.drop n) else none

/-- Checked `memcpy(dst, src, n)`; the result is the new `dst`. -/
def memcpy (dst src : List Nat) (n : Nat) : Option (List Nat) :=
  if n ≤ dst.length ∧ n ≤ src.length then some (src.take n ++ dst.drop n) else none

/-- Checked `memcmp(a, b, n)`; `true` stands for a non-zero result. -/
def memcmp (a b : List Nat) (n : Nat) : Option Bool :=
  if n ≤ a.length ∧ n ≤ b.length then some (decide (a.take n ≠ b.take n)) else none

/-! ## Control line, bus, work queue -/

/-- The function `set_a0`. -/
def set_a0 (s : Driver) (a0 : Nat) : Driver :=
  { s with bus := s.bus ++ [BusEvent.set_a0 a0] }

/-- The call `spi_write(spi_device, dogm128_dev.user_buff, len)`.  The return code
is the head of the script; the callers in the refresh pass drop it. -/
def spi_write (s : Driver) (len : Nat) : Option (Driver × Int) :=
  if len ≤ s.user_buff.length then
    some ({ s with bus := s.bus ++ [BusEvent.spi_write (s.user_buff.take len) (s.spi_status.headD 0)],
                   spi_status := s.spi_status.tail },
          s.spi_status.headD 0)
  else none

/-- The function `dogm128_queue`: hand `dogm128_work` to the work queue.  The delay
`HZ / dogm128_rate` is not part of the state. -/
def dogm128_queue (s : Driver) : Driver :=
  { s with work_pending := true, queue_calls := s.queue_calls + 1 }

/-- The call `cancel_delayed_work(&dogm128_work)`. -/
def cancel_delayed_work (s : Driver) : Driver :=
  { s with work_pending := false }

/-! ## The gate -/

/-- The function `dogm128_enable`; the first component is the return value. -/
def dogm128_enable (s : Driver) : Nat × Driver :=
  if s.dogm128_updating = 0 then
    (0, dogm128_queue { s with dogm128_updating := 1 })
  else
    (1, s)

/-- The function `dogm128_disable`. -/
def dogm128_disable (s : Driver) : Driver :=
  if s.dogm128_updating ≠ 0 then
    cancel_delayed_work { s with dogm128_updating := 0 }
  else
    s

/-- The function `dogm128_isenabled`. -/
def dogm128_isenabled (s : Driver) : Nat :=
  s.dogm128_updating

/-! ## The refresh pass -/

/-- The loop `for (k = 0, ub = user_buff; k < DOGM_RES_X; k++)` of `dogm128_update`,
with `n` iterations left, for the row `j` of the page that starts at `p`. -/
def colLoop (buf : List Nat) (p j : Nat) : Nat → Nat → List Nat → Option (List Nat)
  | 0, _, ub => some ub
  | n + 1, k, ub =>
    match buf[p + ((j * DOGM_RES_X / 8) + (k / 8))]? with
    | none => none
    | some b =>
      if b &&& (1 <<< (k % 8)) ≠ 0 then
        match ub[k]? with
        | none => none
        | some v => colLoop buf p j n (k + 1) (ub.set k ((v ||| (1 <<< j)) % 256))
      else
        colLoop buf p j n (k + 1) ub

/-- The loop `for (j = 0; j < 8; j++)` of `dogm128_update`, with `n` iterations left. -/
def rowLoop (buf : List Nat) (p : Nat) : Nat → Nat → List Nat → Option (List Nat)
  | 0, _, ub => some ub
  | n + 1, j, ub =>
    match colLoop buf p j DOGM_RES_X 0 ub with
    | none => none
    | some ub1 => rowLoop buf p n (j + 1) ub1

/-- One iteration of the page loop of `dogm128_update`: `i` is the loop variable and
`p` the offset of the pointer `p` into `dogm128_buffer`. -/
def pageBody (i p : Nat) (s : Driver) : Option Driver := do
  let s := set_a0 s 0
  let ub ← store s.user_buff 0 (DOGM_CMD_SET_PAGE_ADDR ||| (0x0f &&& (i / DOGM_RES_X)))
  let (s, _) ← spi_write { s with user_buff := ub } 1
  let ub ← store s.user_buff 0 (DOGM_CMD_SET_COL_ADDR_L ||| 0)
  let ub ← store ub 1 (DOGM_CMD_SET_COL_ADDR_H ||| 0)
  let (s, _) ← spi_write { s with user_buff := ub } 2
  let ub ← memset s.user_buff 0x00 DOGM_RES_X
  let ub ← rowLoop s.dogm128_buffer p 8 0 ub
  let s := set_a0 { s with user_buff := ub } 1
  let (s, _) ← spi_write s DOGM_RES_X
  pure s

/-- The loop `for (i = 0; i < DOGM_RAM_SIZE; i += DOGM_RES_X)` with `n` iterations
left; the pointer `p` moves by `DOGM_RES_X` together with `i`. -/
def pageLoop : Nat → Nat → Nat → Driver → Option Driver
  | 0, _, _, s => some s
  | n + 1, i, p, s =>
    match pageBody i p s with
    | none => none
    | some s1 => pageLoop n (i + DOGM_RES_X) (p + DOGM_RES_X) s1

/-- Number of values `0, DOGM_RES_X, 2 * DOGM_RES_X, ...` below `DOGM_RAM_SIZE`. -/
def pageCount : Nat := (DOGM_RAM_SIZE + DOGM_RES_X - 1) / DOGM_RES_X

/-- The work function `dogm128_update`. -/
def dogm128_update (s : Driver) : Option Driver :=
  match s.spi_device with
  | none => some s
  | some _ =>
    match memcmp s.dogm128_cache s.dogm128_buffer DOGM_RAM_SIZE with
    | none => none
    | some changed =>
      let sent : Option Driver :=
        if changed then
          match pageLoop pageCount 0 0 s with
          | none => none
          | some s1 =>
            match memcpy s1.dogm128_cache s1.dogm128_buffer DOGM_RAM_SIZE with
            | none => none
            | some c => some { s1 with dogm128_cache := c }
        else some s
      match sent with
      | none => none
      | some s2 => if s2.dogm128_updating ≠ 0 then some (dogm128_queue s2) else some s2

/-- The work queue runs the pending work item: the pending bit is cleared and the
work function is called.  Nothing runs when no work is pending. -/
def fire (s : Driver) : Option Driver :=
  if s.work_pending then dogm128_update { s with work_pending := false } else none

/-! ## The transposition as the specification words it -/

/-- Pixel `(r, c)` of a row-major bitmap with 1 bit per pixel and 16 bytes per row:
bit `c mod 8` of byte `16 * r + c / 8`. -/
def pixel (B : List Nat) (r c : Nat) : Bool :=
  (B.getD (16 * r + c / 8) 0).testBit (c % 8)

/-- The number whose bit `t`, for `t < n`, is `f t`; the other bits are clear. -/
def packBits (f : Nat → Bool) : Nat → Nat
  | 0 => 0
  | n + 1 => packBits f n ||| (if f n then 2 ^ n else 0)

/-- The byte whose bit `j`, for `j < rows`, is pixel `(8 * p + j, c)`; the other
bits are clear. -/
def spec_column_byte (B : List Nat) (p c rows : Nat) : Nat :=
  packBits (fun j => pixel B (8 * p + j) c) rows

/-- The function `encode_page` of the specification: one byte per column, eight
vertically stacked pixels each. -/
def spec_encode_page (B : List Nat) (p : Nat) : List Nat :=
  (List.range DOGM_RES_X).map (fun c => spec_column_byte B p c 8)

/-! ## Closed forms of the loops -/

/-- The scratch buffer while row `j` of page `pg` is being merged: columns below `k`
already carry row `j`, the others carry rows below `j` only. -/
def midRow (B : List Nat) (pg j k : Nat) : List Nat :=
  (List.range DOGM_RES_X).map (fun c => spec_column_byte B pg c (if c < k then j + 1 else j))

/-- The page-select command byte as `dogm128_update` computes it for page `pg`. -/
def pageSelect (pg : Nat) : Nat :=
  (DOGM_CMD_SET_PAGE_ADDR ||| (0x0f &&& pg)) % 256

/-- Control-line and bus activity of one page, given the script of return codes. -/
def pageTraffic (B : List Nat) (pg : Nat) (st : List Int) : List BusEvent :=
  [ BusEvent.set_a0 0,
    BusEvent.spi_write [pageSelect pg] (st.getD 0 0),
    BusEvent.spi_write [0x00, 0x10] (st.getD 1 0),
    BusEvent.set_a0 1,
    BusEvent.spi_write (spec_encode_page B pg) (st.getD 2 0) ]

/-- The state after the page-loop iteration for page `pg`. -/
def pageStep (pg : Nat) (s : Driver) : Driver :=
  { s with user_buff := spec_encode_page s.dogm128_buffer pg,
           bus := s.bus ++ pageTraffic s.dogm128_buffer pg s.spi_status,
           spi_status := s.spi_status.drop 3 }

/-- Control-line and bus activity of `n` consecutive pages starting at page `pg`. -/
def passTraffic (B : List Nat) : Nat → Nat → List Int → List BusEvent
  | 0, _, _ => []
  | n + 1, pg, st => pageTraffic B pg st ++ passTraffic B n (pg + 1) (st.drop 3)

/-- The state after `n` page-loop iterations starting at page `pg`. -/
def pagesFrom : Nat → Nat → Driver → Driver
  | 0, _, s => s
  | n + 1, pg, s => pagesFrom n (pg + 1) (pageStep pg s)

/-! ## The initialised driver and its frames -/

/-- The initialised driver: `user_buff` is `USER_BUFF_SIZE` bytes (the `kzalloc` in
`dogm128_init`), bitmap and cache are at least `DOGM_RAM_SIZE` bytes (each is a
page, and `dogm128_init` asserts `PAGE_SIZE >= DOGM_RAM_SIZE`). -/
def WellFormed (s : Driver) : Prop :=
  s.user_buff.length = USER_BUFF_SIZE ∧
  DOGM_RAM_SIZE ≤ s.dogm128_buffer.length ∧
  DOGM_RAM_SIZE ≤ s.dogm128_cache.length

instance (s : Driver) : Decidable (WellFormed s) := by
  unfold WellFormed; infer_instance

/-- The first `DOGM_RAM_SIZE` bytes of a buffer: the frame. -/
def frame (buf : List Nat) : List Nat := buf.take DOGM_RAM_SIZE

/-- The predicate `changed()` of the specification: the `memcmp` of `dogm128_update`
is non-zero. -/
def changed (s : Driver) : Bool :=
  decide (frame s.dogm128_cache ≠ frame s.dogm128_buffer)

/-- The re-arm at the end of `dogm128_update`. -/
def rearm (s : Driver) : Driver :=
  if s.dogm128_updating ≠ 0 then dogm128_queue s else s

/-- The state after the transmission and commit of a dirty pass. -/
def transmitted (s : Driver) : Driver :=
  { s with user_buff := spec_encode_page s.dogm128_buffer 7,
           bus := s.bus ++ passTraffic s.dogm128_buffer 8 0 s.spi_status,
           spi_status := s.spi_status.drop 24,
           dogm128_cache := frame s.dogm128_buffer ++ s.dogm128_cache.drop DOGM_RAM_SIZE }

/-! ## Reading the bus log -/

/-- The events a pass appended to the log: those of `s1` after those of `s`. -/
def passEvents (s s1 : Driver) : List BusEvent :=
  s1.bus.drop s.bus.length

/-- The payloads of the bus writes of a log, in order. -/
def writes : List BusEvent → List (List Nat)
  | [] => []
  | BusEvent.set_a0 _ :: es => writes es
  | BusEvent.spi_write d _ :: es => d :: writes es

/-- The return codes of the bus writes of a log, in order. -/
def statuses : List BusEvent → List Int
  | [] => []
  | BusEvent.set_a0 _ :: es => statuses es
  | BusEvent.spi_write _ r :: es => r :: statuses es

/-- The payloads the display takes as pixel data: the writes made while the mode
line is at data (non-zero).  The first argument is the level of the line before the
log starts. -/
def dataBursts : Nat → List BusEvent → List (List Nat)
  | _, [] => []
  | _, BusEvent.set_a0 v :: es => dataBursts v es
  | a0, BusEvent.spi_write d _ :: es =>
    if a0 ≠ 0 then d :: dataBursts a0 es else dataBursts a0 es

/-- Byte `b` of the bitmap rebuilt from the page bursts: its bit `t` is pixel
`(b / 16, 8 * (b % 16) + t)`, found at bit `(b / 16) % 8` of byte `8 * (b % 16) + t`
of the burst of page `(b / 16) / 8`. -/
def reassemble_byte (bursts : List (List Nat)) (b : Nat) : Nat :=
  packBits (fun t => ((bursts.getD (b / 16 / 8) []).getD (8 * (b % 16) + t) 0).testBit (b / 16 % 8)) 8

/-- The row-major bitmap rebuilt from the page bursts. -/
def reassemble (bursts : List (List Nat)) : List Nat :=
  (List.range DOGM_RAM_SIZE).map (reassemble_byte bursts)

/-- The three payloads written for page `p`, as the specification frames them. -/
def spec_page_writes (B : List Nat) (p : Nat) : List (List Nat) :=
  [[0xB0 ||| p], [0x00, 0x10], spec_encode_page B p]

/-! ## Step model of the gate and the scheduler -/

/-- The operations that drive the refresh machinery. -/
inductive Op where
  | enable
  | disable
  | pass
  deriving DecidableEq, Repr

/-- One step: a call of `dogm128_enable`, a call of `dogm128_disable`, or the work
queue running the pending pass. -/
def step (s : Driver) : Op → Option Driver
  | Op.enable => some (dogm128_enable s).2
  | Op.disable => some (dogm128_disable s)
  | Op.pass => fire s

/-- Run a sequence of operations, oldest first. -/
def runOps : List Op → Driver → Option Driver
  | [], s => some s
  | op :: ops, s =>
    match step s op with
    | none => none
    | some s1 => runOps ops s1

/-- The initial states: gate free, nothing queued. -/
def Initial (s : Driver) : Prop :=
  s.dogm128_updating = 0 ∧ s.work_pending = false

/-- A state is reachable when a run from an initial state ends in it. -/
def Reachable (s : Driver) : Prop :=
  ∃ s0 ops, Initial s0 ∧ runOps ops s0 = some s

/-- The fields of the gate and the work queue. -/
def sched (s : Driver) : Nat × Bool × Nat :=
  (s.dogm128_updating, s.work_pending, s.queue_calls)

/-- A wakeup is pending only if the gate is held. -/
def PendingOnlyIfHeld (s : Driver) : Prop :=
  s.work_pending = true → s.dogm128_updating ≠ 0

/-! ## Sample states -/

/-- An all-zero frame of 1024 bytes. -/
def zeros : List Nat := List.replicate 1024 0

/-- A running driver with a device attached, a stale scratch buffer, and a bitmap
that differs from the cache in byte 500 only. -/
def sampleDirty : Driver :=
  { spi_device := some 1, user_buff := List.replicate 128 0xff,
    dogm128_buffer := zeros.set 500 1, dogm128_cache := zeros,
    dogm128_updating := 1, work_pending := false, queue_calls := 0,
    bus := [], spi_status := [] }

/-- The state `sampleDirty` on a bus whose tenth write, the page-select of page 3,
returns the error -5. -/
def sampleFailing : Driver :=
  { sampleDirty with spi_status := [0, 0, 0, 0, 0, 0, 0, 0, 0, -5] }

/-- A freshly initialised driver to which no device has been attached yet. -/
def sampleAbsent : Driver :=
  { spi_device := none, user_buff := List.replicate 128 0,
    dogm128_buffer := zeros.set 500 1, dogm128_cache := zeros,
    dogm128_updating := 0, work_pending := false, queue_calls := 0,
    bus := [], spi_status := [] }

/-- A freshly initialised driver with a device attached. -/
def sampleIdle : Driver :=
  { sampleAbsent with spi_device := some 1 }

/-! ## Bit-level lemmas -/

theorem and_one_shiftLeft_ne_zero (b m : Nat) :
    b &&& (1 <<< m) ≠ 0 ↔ b.testBit m = true := by
  rw [Nat.one_shiftLeft]
  constructor
  · intro h
    by_contra hb
    apply h
    apply Nat.eq_of_testBit_eq
    intro i
    simp only [Nat.testBit_and, Nat.testBit_two_pow, Nat.zero_testBit]
    by_cases hi : m = i
    · subst hi; simp [hb]
    · simp [hi]
  · intro hb h
    have := congrArg (fun x => x.testBit m) h
    simp [Nat.testBit_and, Nat.testBit_two_pow, hb] at this

theorem testBit_packBits (f : Nat → Bool) (n t : Nat) :
    (packBits f n).testBit t = (decide (t < n) && f t) := by
  induction n with
  | zero => simp [packBits]
  | succ n ih =>
    simp only [packBits, Nat.testBit_or, ih]
    by_cases hp : f n = true
    · simp only [hp, if_true, Nat.testBit_two_pow]
      by_cases htn : n = t
      · subst htn; simp [hp]
      · by_cases hlt : t < n
        · have : t < n + 1 := by omega
          simp [hlt, this, htn]
        · have : ¬ t < n + 1 := by omega
          simp [hlt, this, htn]
    · simp only [hp, Nat.zero_testBit, Bool.or_false]
      by_cases htn : n = t
      · subst htn; simp [hp]
      · by_cases hlt : t < n
        · have : t < n + 1 := by omega
          simp [hlt, this]
        · have : ¬ t < n + 1 := by omega
          simp [hlt, this]

theorem testBit_spec_column_byte (B : List Nat) (p c rows t : Nat) :
    (spec_column_byte B p c rows).testBit t = (decide (t < rows) && pixel B (8 * p + t) c) :=
  testBit_packBits _ rows t

theorem spec_column_byte_lt (B : List Nat) (p c rows : Nat) (h : rows ≤ 8) :
    spec_column_byte B p c rows < 256 := by
  have h2 : (256 : Nat) = 2 ^ 8 := by norm_num
  rw [h2]
  apply Nat.lt_pow_two_of_testBit
  intro i hi
  rw [testBit_spec_column_byte]
  have : ¬ i < rows := by omega
  simp [this]

/-- Setting bit `j` of a column byte the way the inner loop does. -/
theorem spec_column_byte_step (B : List Nat) (p c j : Nat) (hj : j < 8)
    (hp : pixel B (8 * p + j) c = true) :
    (spec_column_byte B p c j ||| (1 <<< j)) % 256 = spec_column_byte B p c (j + 1) := by
  have hlt := spec_column_byte_lt B p c (j + 1) (by omega)
  rw [Nat.one_shiftLeft]
  simp only [spec_column_byte, packBits, hp, if_true] at hlt ⊢
  exact Nat.mod_eq_of_lt hlt

theorem spec_column_byte_skip (B : List Nat) (p c j : Nat)
    (hp : ¬ pixel B (8 * p + j) c = true) :
    spec_column_byte B p c (j + 1) = spec_column_byte B p c j := by
  simp [spec_column_byte, packBits, hp]

/-! ## The inner loops compute the specified page -/

theorem midRow_length (B : List Nat) (pg j k : Nat) : (midRow B pg j k).length = DOGM_RES_X := by
  simp [midRow]

theorem midRow_full (B : List Nat) (pg j : Nat) :
    midRow B pg j DOGM_RES_X = midRow B pg (j + 1) 0 := by
  unfold midRow
  apply List.map_congr_left
  intro c hc
  have : c < DOGM_RES_X := List.mem_range.mp hc
  simp [this]

theorem midRow_zero (B : List Nat) (pg : Nat) :
    midRow B pg 0 0 = List.replicate DOGM_RES_X 0 := by
  apply List.ext_getElem
  · simp [midRow]
  · intro n h1 h2
    simp [midRow, spec_column_byte, packBits]

theorem midRow_last (B : List Nat) (pg : Nat) :
    midRow B pg 8 0 = spec_encode_page B pg := by
  simp [midRow, spec_encode_page]

theorem pixel_eq_of_getElem? (B : List Nat) (pg j k b : Nat)
    (h : B[DOGM_RES_X * pg + ((j * DOGM_RES_X / 8) + (k / 8))]? = some b) :
    pixel B (8 * pg + j) k = b.testBit (k % 8) := by
  unfold pixel
  have hidx : 16 * (8 * pg + j) + k / 8 = DOGM_RES_X * pg + ((j * DOGM_RES_X / 8) + (k / 8)) := by
    simp only [DOGM_RES_X]; omega
  rw [hidx, List.getD_eq_getElem?_getD, h]
  rfl

theorem midRow_set (B : List Nat) (pg j k v : Nat)
    (hv : v = spec_column_byte B pg k (j + 1)) :
    (midRow B pg j k).set k v = midRow B pg j (k + 1) := by
  apply List.ext_getElem
  · simp [midRow]
  · intro n h1 h2
    have hn : n < DOGM_RES_X := by simpa [midRow] using h2
    by_cases hnk : k = n
    · subst hnk
      simp [midRow, hv]
    · rw [List.getElem_set_ne hnk]
      simp only [midRow, List.getElem_map, List.getElem_range]
      by_cases hlt : n < k
      · have : n < k + 1 := by omega
        simp [hlt, this]
      · have : ¬ n < k + 1 := by omega
        simp [hlt, this]

theorem midRow_skip (B : List Nat) (pg j k : Nat)
    (hv : spec_column_byte B pg k (j + 1) = spec_column_byte B pg k j) :
    midRow B pg j (k + 1) = midRow B pg j k := by
  unfold midRow
  apply List.map_congr_left
  intro c _
  by_cases hck : c = k
  · subst hck; simp [hv]
  · by_cases hlt : c < k
    · have : c < k + 1 := by omega
      simp [hlt, this]
    · have : ¬ c < k + 1 := by omega
      simp [hlt, this]

theorem colLoop_midRow (B : List Nat) (pg j : Nat) (hj : j < 8)
    (hB : DOGM_RES_X * pg + DOGM_RES_X ≤ B.length) :
    ∀ n k, k + n ≤ DOGM_RES_X →
      colLoop B (DOGM_RES_X * pg) j n k (midRow B pg j k) = some (midRow B pg j (k + n)) := by
  intro n
  induction n with
  | zero => intro k _; simp [colLoop]
  | succ n ih =>
    intro k hk
    have hk1 : k < DOGM_RES_X := by omega
    have hidx : DOGM_RES_X * pg + ((j * DOGM_RES_X / 8) + (k / 8)) < B.length := by
      simp only [DOGM_RES_X] at hB hk1 ⊢; omega
    have hget := List.getElem?_eq_getElem hidx
    have hpix := pixel_eq_of_getElem? B pg j k _ hget
    have hub : (midRow B pg j k)[k]? = some (spec_column_byte B pg k j) := by
      have hlen : k < (midRow B pg j k).length := by rw [midRow_length]; exact hk1
      rw [List.getElem?_eq_getElem hlen]
      simp [midRow]
    have hnext : k + 1 + n = k + (n + 1) := by omega
    rw [colLoop, hget]
    simp only []
    by_cases hbit : B[DOGM_RES_X * pg + ((j * DOGM_RES_X / 8) + (k / 8))] &&& (1 <<< (k % 8)) ≠ 0
    · rw [if_pos hbit, hub]
      simp only []
      have hp : pixel B (8 * pg + j) k = true := by
        rw [hpix]; exact (and_one_shiftLeft_ne_zero _ _).mp hbit
      rw [midRow_set B pg j k _ (spec_column_byte_step B pg k j hj hp), ih (k + 1) (by omega), hnext]
    · rw [if_neg hbit]
      have hp : ¬ pixel B (8 * pg + j) k = true := by
        rw [hpix]; exact fun h => hbit ((and_one_shiftLeft_ne_zero _ _).mpr h)
      rw [← midRow_skip B pg j k (spec_column_byte_skip B pg k j hp), ih (k + 1) (by omega), hnext]

theorem rowLoop_midRow (B : List Nat) (pg : Nat)
    (hB : DOGM_RES_X * pg + DOGM_RES_X ≤ B.length) :
    ∀ n j, j + n ≤ 8 →
      rowLoop B (DOGM_RES_X * pg) n j (midRow B pg j 0) = some (midRow B pg (j + n) 0) := by
  intro n
  induction n with
  | zero => intro j _; simp [rowLoop]
  | succ n ih =>
    intro j hj
    have hc := colLoop_midRow B pg j (by omega) hB DOGM_RES_X 0 (by omega)
    rw [Nat.zero_add, midRow_full] at hc
    rw [rowLoop, hc]
    simp only []
    rw [ih (j + 1) (by omega)]
    congr 2
    omega

theorem memset_scratch (ub : List Nat) (hub : ub.length = DOGM_RES_X) :
    memset ub 0x00 DOGM_RES_X = some (List.replicate DOGM_RES_X 0) := by
  unfold memset
  rw [if_pos (by omega)]
  have : List.drop DOGM_RES_X ub = [] := List.drop_eq_nil_of_le (by omega)
  simp [this]

/-- The two nested loops of one page, run on the cleared scratch buffer, produce
`spec_encode_page`. -/
theorem rowLoop_encode (B : List Nat) (pg : Nat)
    (hB : DOGM_RES_X * pg + DOGM_RES_X ≤ B.length) :
    rowLoop B (DOGM_RES_X * pg) 8 0 (List.replicate DOGM_RES_X 0) =
      some (spec_encode_page B pg) := by
  rw [← midRow_zero B pg, rowLoop_midRow B pg hB 8 0 (by omega), Nat.zero_add, midRow_last]

theorem spec_encode_page_length (B : List Nat) (pg : Nat) :
    (spec_encode_page B pg).length = DOGM_RES_X := by
  simp [spec_encode_page]

/-! ## Closed form of the page loop -/

theorem pageBody_eq (pg : Nat) (s : Driver) (hub : s.user_buff.length = DOGM_RES_X)
    (hB : DOGM_RES_X * pg + DOGM_RES_X ≤ s.dogm128_buffer.length) :
    pageBody (DOGM_RES_X * pg) (DOGM_RES_X * pg) s = some (pageStep pg s) := by
  obtain ⟨dev, ub, B, C, upd, pend, qc, bus, st⟩ := s
  simp only at hub hB
  match ub, hub with
  | a :: b :: rest, hub =>
    have hlen : (0x00 % 256 :: 0x10 % 256 :: rest).length = DOGM_RES_X := by
      simpa using hub
    have hdiv : DOGM_RES_X * pg / DOGM_RES_X = pg := Nat.mul_div_cancel_left pg (by decide)
    have hst : (BusEvent.spi_write [pageSelect pg] (st.headD 0) = BusEvent.spi_write [pageSelect pg] (st.getD 0 0))
        ∧ (BusEvent.spi_write [0x00, 0x10] (st.tail.headD 0) = BusEvent.spi_write [0x00, 0x10] (st.getD 1 0))
        ∧ (BusEvent.spi_write (spec_encode_page B pg) (st.tail.tail.headD 0)
            = BusEvent.spi_write (spec_encode_page B pg) (st.getD 2 0))
        ∧ st.tail.tail.tail = st.drop 3 := by
      match st with
      | [] => simp
      | [_] => simp
      | [_, _] => simp
      | _ :: _ :: _ :: _ => simp
    simp only [pageBody, set_a0, store, spi_write, bind, Option.bind, pure, List.length_cons,
      Nat.zero_lt_succ, if_true, List.set_cons_zero, List.set_cons_succ, hdiv,
      DOGM_CMD_SET_COL_ADDR_L, DOGM_CMD_SET_COL_ADDR_H, Nat.lt_add_left_iff_pos,
      Nat.le_add_left, List.take_succ_cons, List.take_zero, Nat.or_zero,
      memset_scratch _ hlen, rowLoop_encode B pg hB, spec_encode_page_length, le_refl]
    have htake : List.take DOGM_RES_X (spec_encode_page B pg) = spec_encode_page B pg :=
      List.take_of_length_le (by rw [spec_encode_page_length])
    obtain ⟨h1, h2, h3, h4⟩ := hst
    have h0 : (0 : Nat) % 256 = 0 := rfl
    have h16 : (16 : Nat) % 256 = 16 := rfl
    rw [htake, h0, h16, h2, h3, h4]
    simp only [pageSelect] at h1
    rw [h1]
    simp only [pageStep, pageTraffic, pageSelect, List.append_assoc, List.cons_append,
      List.nil_append]

theorem pageLoop_eq : ∀ (n pg : Nat) (s : Driver), s.user_buff.length = DOGM_RES_X →
    DOGM_RES_X * (pg + n) ≤ s.dogm128_buffer.length →
    pageLoop n (DOGM_RES_X * pg) (DOGM_RES_X * pg) s = some (pagesFrom n pg s) := by
  intro n
  induction n with
  | zero => intro pg s _ _; rfl
  | succ n ih =>
    intro pg s hub hB
    have hB1 : DOGM_RES_X * pg + DOGM_RES_X ≤ s.dogm128_buffer.length := by
      have : DOGM_RES_X * (pg + (n + 1)) = DOGM_RES_X * pg + DOGM_RES_X + DOGM_RES_X * n := by ring
      omega
    have hnext : DOGM_RES_X * pg + DOGM_RES_X = DOGM_RES_X * (pg + 1) := by ring
    rw [pageLoop, pageBody_eq pg s hub hB1]
    simp only []
    rw [hnext, ih (pg + 1) (pageStep pg s) (by simp [pageStep, spec_encode_page_length])
      (by simp only [pageStep]; rw [show pg + 1 + n = pg + (n + 1) by omega]; exact hB)]
    rfl

theorem pagesFrom_succ : ∀ (n pg : Nat) (s : Driver),
    pagesFrom (n + 1) pg s =
      { s with user_buff := spec_encode_page s.dogm128_buffer (pg + n),
               bus := s.bus ++ passTraffic s.dogm128_buffer (n + 1) pg s.spi_status,
               spi_status := s.spi_status.drop (3 * (n + 1)) } := by
  intro n
  induction n with
  | zero =>
    intro pg s
    simp [pagesFrom, pageStep, passTraffic]
  | succ n ih =>
    intro pg s
    rw [pagesFrom, ih (pg + 1) (pageStep pg s)]
    have h1 : pg + 1 + n = pg + (n + 1) := by omega
    have h2 : 3 + 3 * (n + 1) = 3 * (n + 1 + 1) := by omega
    simp only [pageStep, passTraffic, List.append_assoc, List.drop_drop, h1, h2]

theorem update_absent (s : Driver) (h : s.spi_device = none) : dogm128_update s = some s := by
  simp [dogm128_update, h]

theorem update_clean (s : Driver) (hw : WellFormed s) (hd : s.spi_device ≠ none)
    (hc : changed s = false) : dogm128_update s = some (rearm s) := by
  obtain ⟨_, hb, hcache⟩ := hw
  obtain ⟨d, hd⟩ := Option.ne_none_iff_exists'.mp hd
  have hm : memcmp s.dogm128_cache s.dogm128_buffer DOGM_RAM_SIZE = some false := by
    unfold memcmp
    rw [if_pos ⟨hcache, hb⟩]
    exact congrArg some hc
  by_cases hu : s.dogm128_updating = 0 <;> simp [dogm128_update, hd, hm, rearm, hu]

theorem update_dirty (s : Driver) (hw : WellFormed s) (hd : s.spi_device ≠ none)
    (hc : changed s = true) : dogm128_update s = some (rearm (transmitted s)) := by
  obtain ⟨hub, hb, hcache⟩ := hw
  obtain ⟨d, hd⟩ := Option.ne_none_iff_exists'.mp hd
  have hm : memcmp s.dogm128_cache s.dogm128_buffer DOGM_RAM_SIZE = some true := by
    unfold memcmp
    rw [if_pos ⟨hcache, hb⟩]
    exact congrArg some hc
  have hpc : pageCount = 8 := by decide
  have hl := pageLoop_eq 8 0 s hub (by simpa [DOGM_RES_X, DOGM_RAM_SIZE] using hb)
  rw [Nat.mul_zero, pagesFrom_succ 7 0 s] at hl
  have hcp : memcpy s.dogm128_cache s.dogm128_buffer DOGM_RAM_SIZE =
      some (frame s.dogm128_buffer ++ s.dogm128_cache.drop DOGM_RAM_SIZE) := by
    unfold memcpy
    rw [if_pos ⟨hcache, hb⟩]; rfl
  by_cases hu : s.dogm128_updating = 0 <;>
    simp [dogm128_update, hd, hm, hpc, hl, hcp, rearm, transmitted, hu]

/-! ## What a dirty pass puts on the bus -/

theorem pageSelect_eq (p : Nat) (hp : p < 8) : pageSelect p = 0xB0 ||| p := by
  interval_cases p <;> rfl

theorem rearm_bus (s : Driver) : (rearm s).bus = s.bus := by
  unfold rearm dogm128_queue
  split <;> rfl

theorem rearm_cache (s : Driver) : (rearm s).dogm128_cache = s.dogm128_cache := by
  unfold rearm dogm128_queue
  split <;> rfl

theorem rearm_buffer (s : Driver) : (rearm s).dogm128_buffer = s.dogm128_buffer := by
  unfold rearm dogm128_queue
  split <;> rfl

theorem rearm_updating (s : Driver) : (rearm s).dogm128_updating = s.dogm128_updating := by
  unfold rearm dogm128_queue
  split <;> rfl

theorem passEvents_transmitted (s : Driver) :
    passEvents s (rearm (transmitted s)) = passTraffic s.dogm128_buffer 8 0 s.spi_status := by
  simp [passEvents, rearm_bus, transmitted]

theorem passEvents_self (s : Driver) : passEvents s (rearm s) = [] := by
  simp [passEvents, rearm_bus]

theorem writes_passTraffic (B : List Nat) (st : List Int) :
    writes (passTraffic B 8 0 st) = ((List.range 8).map (spec_page_writes B)).flatten := by
  have hr : List.range 8 = [0, 1, 2, 3, 4, 5, 6, 7] := rfl
  rw [hr]
  simp only [passTraffic, pageTraffic, writes, List.cons_append, List.nil_append, List.map,
    List.flatten, spec_page_writes, List.append_nil]
  rfl

theorem dataBursts_passTraffic (B : List Nat) (st : List Int) (a0 : Nat) :
    dataBursts a0 (passTraffic B 8 0 st) = (List.range 8).map (spec_encode_page B) := by
  have hr : List.range 8 = [0, 1, 2, 3, 4, 5, 6, 7] := rfl
  rw [hr]
  simp [passTraffic, pageTraffic, dataBursts]

theorem frame_length (buf : List Nat) (h : DOGM_RAM_SIZE ≤ buf.length) :
    (frame buf).length = DOGM_RAM_SIZE := by
  simp [frame, h]

theorem frame_commit (B C : List Nat) (h : DOGM_RAM_SIZE ≤ B.length) :
    frame (frame B ++ C.drop DOGM_RAM_SIZE) = frame B := by
  have hl := frame_length B h
  unfold frame at hl ⊢
  rw [List.take_append_of_le_length (by omega), List.take_take, Nat.min_self]

theorem changed_transmitted (s : Driver) (hw : WellFormed s) :
    changed (rearm (transmitted s)) = false := by
  simp [changed, rearm_cache, rearm_buffer, transmitted, frame_commit _ _ hw.2.1]

theorem wellFormed_transmitted (s : Driver) (hw : WellFormed s) :
    WellFormed (rearm (transmitted s)) := by
  obtain ⟨h1, h2, h3⟩ := hw
  have hl := frame_length _ h2
  refine ⟨?_, ?_, ?_⟩
  · unfold rearm dogm128_queue
    split <;> simp [transmitted, spec_encode_page, DOGM_RES_X, USER_BUFF_SIZE]
  · rw [rearm_buffer]; exact h2
  · rw [rearm_cache]
    simp only [transmitted, List.length_append, hl, List.length_drop]
    omega

theorem wellFormed_rearm (s : Driver) (hw : WellFormed s) : WellFormed (rearm s) := by
  unfold rearm dogm128_queue
  split
  · exact hw
  · exact hw

theorem testBit_spec_encode_page (B : List Nat) (p c j : Nat) (hc : c < DOGM_RES_X)
    (hj : j < 8) :
    ((spec_encode_page B p).getD c 0).testBit j = pixel B (8 * p + j) c := by
  simp [spec_encode_page, List.getD_eq_getElem?_getD, List.getElem?_range hc,
    testBit_spec_column_byte, hj]

theorem reassemble_pages (B : List Nat) (hB : DOGM_RAM_SIZE ≤ B.length)
    (hbytes : ∀ x ∈ frame B, x < 256) :
    reassemble ((List.range 8).map (spec_encode_page B)) = frame B := by
  apply List.ext_getElem
  · simp [reassemble, frame_length B hB]
  · intro n h1 h2
    have hn : n < DOGM_RAM_SIZE := by simpa [reassemble] using h1
    have hn1 : n < 1024 := hn
    have hnB : n < B.length := by omega
    have hfr : (frame B)[n] = B[n] := by simp [frame]
    have hlt : B[n] < 256 := by
      rw [← hfr]; exact hbytes _ (List.getElem_mem h2)
    simp only [reassemble, List.getElem_map, List.getElem_range, hfr]
    apply Nat.eq_of_testBit_eq
    intro t
    unfold reassemble_byte
    rw [testBit_packBits]
    by_cases ht : t < 8
    · have hpage : n / 16 / 8 < 8 := by omega
      have hcol : 8 * (n % 16) + t < DOGM_RES_X := by simp only [DOGM_RES_X]; omega
      have hidx : 16 * (8 * (n / 16 / 8) + n / 16 % 8) + (8 * (n % 16) + t) / 8 = n := by omega
      have hbit : (8 * (n % 16) + t) % 8 = t := by omega
      have hb : ((List.range 8).map (spec_encode_page B)).getD (n / 16 / 8) [] =
          spec_encode_page B (n / 16 / 8) := by
        simp [List.getD_eq_getElem?_getD, List.getElem?_range hpage]
      rw [hb, testBit_spec_encode_page B _ _ _ hcol (by omega)]
      simp only [ht, decide_True, Bool.true_and, pixel, hidx, hbit]
      rw [List.getD_eq_getElem?_getD, List.getElem?_eq_getElem hnB]
      rfl
    · have h8 : B[n] < 2 ^ t := by
        have : 2 ^ 8 ≤ 2 ^ t := Nat.pow_le_pow_right (by decide) (by omega)
        omega
      simp [ht, Nat.testBit_lt_two_pow h8]

theorem changed_of_ne (s : Driver) (h : frame s.dogm128_cache ≠ frame s.dogm128_buffer) :
    changed s = true := by
  simp [changed, h]

theorem getD_drop (st : List Int) (n k : Nat) : (st.drop n).getD k 0 = st.getD (n + k) 0 := by
  simp [List.getD_eq_getElem?_getD, List.getElem?_drop]

theorem statuses_passTraffic (B : List Nat) (st : List Int) :
    statuses (passTraffic B 8 0 st) = (List.range 24).map (fun i => st.getD i 0) := by
  have hr : List.range 24 = [0, 1, 2, 3, 4, 5, 6, 7, 8, 9, 10, 11, 12, 13, 14, 15, 16, 17, 18,
      19, 20, 21, 22, 23] := rfl
  rw [hr]
  simp [passTraffic, pageTraffic, statuses, getD_drop]

theorem passTraffic_length (B : List Nat) (st : List Int) :
    (passTraffic B 8 0 st).length = 40 := by
  simp [passTraffic, pageTraffic]

theorem passTraffic_page (B : List Nat) (st : List Int) (p : Nat) (hp : p < 8) :
    ((passTraffic B 8 0 st).drop (5 * p)).take 5 =
      [ BusEvent.set_a0 0,
        BusEvent.spi_write [0xB0 ||| p] (st.getD (3 * p) 0),
        BusEvent.spi_write [0x00, 0x10] (st.getD (3 * p + 1) 0),
        BusEvent.set_a0 1,
        BusEvent.spi_write (spec_encode_page B p) (st.getD (3 * p + 2) 0) ] := by
  interval_cases p <;>
    simp [passTraffic, pageTraffic, getD_drop, pageSelect_eq]

/-! ## The claims -/

/-- C1 (page transposition).  In a dirty pass with a device attached, whatever the
scratch buffer held and whatever level the mode line had, the display receives
exactly 8 data bursts; the burst of page `p` has 128 bytes and bit `j` of its byte
`c` is pixel `(8 * p + j, c)` of the bitmap; and when the bitmap holds bytes (values
below 256), reassembling the 8 bursts gives back the 1024-byte frame. -/
theorem page_transposition (s : Driver) (a0 : Nat) (hw : WellFormed s)
    (hd : s.spi_device ≠ none) (hc : frame s.dogm128_cache ≠ frame s.dogm128_buffer) :
    ∃ s1, dogm128_update s = some s1 ∧
      (dataBursts a0 (passEvents s s1)).length = 8 ∧
      (∀ p, p < 8 →
        ((dataBursts a0 (passEvents s s1)).getD p []).length = 128 ∧
        ∀ c j, c < 128 → j < 8 →
          (((dataBursts a0 (passEvents s s1)).getD p []).getD c 0).testBit j =
            pixel s.dogm128_buffer (8 * p + j) c) ∧
      ((∀ x ∈ frame s.dogm128_buffer, x < 256) →
        reassemble (dataBursts a0 (passEvents s s1)) = frame s.dogm128_buffer) := by
  refine ⟨_, update_dirty s hw hd (changed_of_ne s hc), ?_⟩
  rw [passEvents_transmitted, dataBursts_passTraffic]
  refine ⟨by simp, ?_, fun hb => reassemble_pages _ hw.2.1 hb⟩
  intro p hp
  have hb : ((List.range 8).map (spec_encode_page s.dogm128_buffer)).getD p [] =
      spec_encode_page s.dogm128_buffer p := by
    simp [List.getD_eq_getElem?_getD, List.getElem?_range hp]
  rw [hb]
  exact ⟨spec_encode_page_length _ _, fun c j hc hj => testBit_spec_encode_page _ _ _ _ hc hj⟩

/-- C2 (command framing).  A dirty pass with a device attached appends exactly 40
events to the log, 5 per page; those of page `p` are, in order: mode line to
command (0), the write `[0xB0 | p]`, the write `[0x00, 0x10]`, mode line to data
(1), and one write of the 128 encoded bytes of page `p`. -/
theorem command_framing (s : Driver) (hw : WellFormed s)
    (hd : s.spi_device ≠ none) (hc : frame s.dogm128_cache ≠ frame s.dogm128_buffer) :
    ∃ s1, dogm128_update s = some s1 ∧
      (passEvents s s1).length = 40 ∧
      ∀ p, p < 8 →
        ((passEvents s s1).drop (5 * p)).take 5 =
          [ BusEvent.set_a0 0,
            BusEvent.spi_write [0xB0 ||| p] (s.spi_status.getD (3 * p) 0),
            BusEvent.spi_write [0x00, 0x10] (s.spi_status.getD (3 * p + 1) 0),
            BusEvent.set_a0 1,
            BusEvent.spi_write (spec_encode_page s.dogm128_buffer p)
              (s.spi_status.getD (3 * p + 2) 0) ] ∧
        (spec_encode_page s.dogm128_buffer p).length = 128 := by
  refine ⟨_, update_dirty s hw hd (changed_of_ne s hc), ?_⟩
  rw [passEvents_transmitted]
  exact ⟨passTraffic_length _ _, fun p hp =>
    ⟨passTraffic_page _ _ p hp, spec_encode_page_length _ _⟩⟩

theorem sampleDirty_wf : WellFormed sampleDirty := by
  simp only [WellFormed, sampleDirty, zeros, List.length_replicate, List.length_set]
  decide

theorem sampleDirty_attached : sampleDirty.spi_device ≠ none := by
  simp [sampleDirty]

theorem sampleDirty_dirty : frame sampleDirty.dogm128_cache ≠ frame sampleDirty.dogm128_buffer := by
  intro h
  have h2 := congrArg (fun l => l[500]?) h
  simp only [frame, sampleDirty, zeros, List.getElem?_take, List.getElem?_set,
    List.getElem?_replicate, List.length_replicate] at h2
  revert h2
  decide

theorem sampleDirty_pixel : pixel sampleDirty.dogm128_buffer (8 * 3 + 7) 32 = true := by
  simp only [pixel, sampleDirty, zeros, List.getD_eq_getElem?_getD, List.getElem?_set,
    List.getElem?_replicate, List.length_replicate]
  decide

theorem sampleDirty_bytes : ∀ x ∈ frame sampleDirty.dogm128_buffer, x < 256 := by
  intro x hx
  have hx1 := List.mem_of_mem_take hx
  simp only [sampleDirty, zeros] at hx1
  rcases List.mem_or_eq_of_mem_set hx1 with h | h
  · rw [List.eq_of_mem_replicate h]; decide
  · rw [h]; decide

/-- Witness of C1 on `sampleDirty`: bit 7 of byte 32 of the burst of page 3 is set
(byte 500 of the bitmap is row 31, columns 32 to 39), and the bursts reassemble to
the frame. -/
theorem page_transposition_witness :
    WellFormed sampleDirty ∧ sampleDirty.spi_device ≠ none ∧
    frame sampleDirty.dogm128_cache ≠ frame sampleDirty.dogm128_buffer ∧
    ∃ s1, dogm128_update sampleDirty = some s1 ∧
      (((dataBursts 0 (passEvents sampleDirty s1)).getD 3 []).getD 32 0).testBit 7 = true ∧
      reassemble (dataBursts 0 (passEvents sampleDirty s1)) = frame sampleDirty.dogm128_buffer := by
  refine ⟨sampleDirty_wf, sampleDirty_attached, sampleDirty_dirty, ?_⟩
  obtain ⟨s1, h1, _, h3, h4⟩ :=
    page_transposition sampleDirty 0 sampleDirty_wf sampleDirty_attached sampleDirty_dirty
  refine ⟨s1, h1, ?_, h4 sampleDirty_bytes⟩
  rw [(h3 3 (by decide)).2 32 7 (by decide) (by decide)]
  exact sampleDirty_pixel

/-- Witness of C2 on `sampleDirty`: the five events of page 3. -/
theorem command_framing_witness :
    WellFormed sampleDirty ∧ sampleDirty.spi_device ≠ none ∧
    frame sampleDirty.dogm128_cache ≠ frame sampleDirty.dogm128_buffer ∧
    ∃ s1, dogm128_update sampleDirty = some s1 ∧
      ((passEvents sampleDirty s1).drop 15).take 5 =
        [ BusEvent.set_a0 0, BusEvent.spi_write [0xB3] 0, BusEvent.spi_write [0x00, 0x10] 0,
          BusEvent.set_a0 1,
          BusEvent.spi_write (spec_encode_page sampleDirty.dogm128_buffer 3) 0 ] := by
  refine ⟨sampleDirty_wf, sampleDirty_attached, sampleDirty_dirty, ?_⟩
  obtain ⟨s1, h1, _, h3⟩ :=
    command_framing sampleDirty sampleDirty_wf sampleDirty_attached sampleDirty_dirty
  exact ⟨s1, h1, (h3 3 (by decide)).1⟩

theorem rearm_spi_device (s : Driver) : (rearm s).spi_device = s.spi_device := by
  unfold rearm dogm128_queue
  split <;> rfl

theorem changed_rearm (s : Driver) : changed (rearm s) = changed s := by
  simp [changed, rearm_cache, rearm_buffer]

theorem spec_page_writes_length (B : List Nat) :
    (((List.range 8).map (spec_page_writes B)).flatten).length = 24 := by
  have hr : List.range 8 = [0, 1, 2, 3, 4, 5, 6, 7] := rfl
  rw [hr]
  simp [spec_page_writes]

/-- C4 (a dirty pass is page-granular and commits).  When the cached frame differs
from the bitmap and a device is attached, one run of `dogm128_update` issues exactly
24 bus writes: for the pages 0, 1, ..., 7 in this order, the page-select, the
column reset and the 128 data bytes; the bitmap is not touched, and afterwards the
cached frame equals the bitmap frame, so `changed` is false; when both buffers are
exactly `DOGM_RAM_SIZE` bytes long the cache equals the bitmap. -/
theorem dirty_pass_commits (s : Driver) (hw : WellFormed s)
    (hd : s.spi_device ≠ none) (hc : frame s.dogm128_cache ≠ frame s.dogm128_buffer) :
    ∃ s1, dogm128_update s = some s1 ∧
      writes (passEvents s s1) =
        ((List.range 8).map (spec_page_writes s.dogm128_buffer)).flatten ∧
      (writes (passEvents s s1)).length = 24 ∧
      s1.dogm128_buffer = s.dogm128_buffer ∧
      frame s1.dogm128_cache = frame s1.dogm128_buffer ∧
      changed s1 = false ∧
      (s.dogm128_buffer.length = DOGM_RAM_SIZE → s.dogm128_cache.length = DOGM_RAM_SIZE →
        s1.dogm128_cache = s1.dogm128_buffer) := by
  refine ⟨_, update_dirty s hw hd (changed_of_ne s hc), ?_⟩
  rw [passEvents_transmitted, writes_passTraffic]
  refine ⟨rfl, spec_page_writes_length _, ?_, ?_, changed_transmitted s hw, ?_⟩
  · rw [rearm_buffer]; rfl
  · rw [rearm_buffer, rearm_cache]
    exact frame_commit _ _ hw.2.1
  · intro hb hcl
    rw [rearm_buffer, rearm_cache]
    simp only [transmitted, frame]
    rw [List.take_of_length_le (Nat.le_of_eq hb), List.drop_eq_nil_of_le (Nat.le_of_eq hcl),
      List.append_nil]

/-- Witness of C4 on `sampleDirty`, whose bitmap and cache differ in byte 500 only. -/
theorem dirty_pass_commits_witness :
    WellFormed sampleDirty ∧ sampleDirty.spi_device ≠ none ∧
    frame sampleDirty.dogm128_cache ≠ frame sampleDirty.dogm128_buffer ∧
    ∃ s1, dogm128_update sampleDirty = some s1 ∧
      (writes (passEvents sampleDirty s1)).length = 24 ∧ changed s1 = false ∧
      s1.dogm128_cache = sampleDirty.dogm128_buffer := by
  refine ⟨sampleDirty_wf, sampleDirty_attached, sampleDirty_dirty, ?_⟩
  obtain ⟨s1, h1, _, h3, h4, _, h6, h7⟩ :=
    dirty_pass_commits sampleDirty sampleDirty_wf sampleDirty_attached sampleDirty_dirty
  have hb : sampleDirty.dogm128_buffer.length = DOGM_RAM_SIZE := by
    simp only [sampleDirty, zeros, List.length_replicate, List.length_set]; decide
  have hcl : sampleDirty.dogm128_cache.length = DOGM_RAM_SIZE := by
    simp only [sampleDirty, zeros, List.length_replicate]; decide
  exact ⟨s1, h1, h3, h6, (h7 hb hcl).trans h4⟩

/-- C5 (idempotence of the refresh pass).  With a device attached, when
`dogm128_update` runs twice in a row on an unmodified bitmap, the second run adds
nothing to the bus log and leaves the cache as the first run left it. -/
theorem refresh_idempotent (s : Driver) (hw : WellFormed s) (hd : s.spi_device ≠ none) :
    ∃ s1 s2, dogm128_update s = some s1 ∧ dogm128_update s1 = some s2 ∧
      s1.dogm128_buffer = s.dogm128_buffer ∧
      s2.bus = s1.bus ∧ writes (passEvents s1 s2) = [] ∧
      s2.dogm128_cache = s1.dogm128_cache := by
  by_cases hc : changed s = true
  · have hw1 := wellFormed_transmitted s hw
    have hd1 : (rearm (transmitted s)).spi_device ≠ none := by
      rw [rearm_spi_device]; exact hd
    refine ⟨_, _, update_dirty s hw hd hc,
      update_clean _ hw1 hd1 (changed_transmitted s hw), ?_, rearm_bus _, ?_, rearm_cache _⟩
    · rw [rearm_buffer]; rfl
    · rw [passEvents_self]; rfl
  · have hc0 : changed s = false := by simpa using hc
    have hd1 : (rearm s).spi_device ≠ none := by
      rw [rearm_spi_device]; exact hd
    refine ⟨_, _, update_clean s hw hd hc0,
      update_clean _ (wellFormed_rearm s hw) hd1 (by rw [changed_rearm]; exact hc0),
      rearm_buffer _, rearm_bus _, ?_, rearm_cache _⟩
    rw [passEvents_self]; rfl

/-- Witness of C5 on `sampleDirty`. -/
theorem refresh_idempotent_witness :
    WellFormed sampleDirty ∧ sampleDirty.spi_device ≠ none ∧
    ∃ s1 s2, dogm128_update sampleDirty = some s1 ∧ dogm128_update s1 = some s2 ∧
      s2.bus = s1.bus ∧ s2.dogm128_cache = s1.dogm128_cache := by
  refine ⟨sampleDirty_wf, sampleDirty_attached, ?_⟩
  obtain ⟨s1, s2, h1, h2, _, h4, _, h6⟩ :=
    refresh_idempotent sampleDirty sampleDirty_wf sampleDirty_attached
  exact ⟨s1, s2, h1, h2, h4, h6⟩

theorem spi_write_sched (s s1 : Driver) (n : Nat) (r : Int) (h : spi_write s n = some (s1, r)) :
    sched s1 = sched s := by
  unfold spi_write at h
  split at h
  · simp only [Option.some.injEq, Prod.mk.injEq] at h
    rw [← h.1]; rfl
  · exact absurd h (by simp)

theorem pageBody_sched (i p : Nat) (s s1 : Driver) (h : pageBody i p s = some s1) :
    sched s1 = sched s := by
  simp only [pageBody, Option.bind_eq_bind, Option.bind_eq_some, Option.pure_def,
    Option.some.injEq] at h
  obtain ⟨_, _, ⟨x1, r1⟩, h1, _, _, _, _, ⟨x2, r2⟩, h2, _, _, _, _, ⟨x3, r3⟩, h3, rfl⟩ := h
  have e1 := spi_write_sched _ _ _ _ h1
  have e2 := spi_write_sched _ _ _ _ h2
  have e3 := spi_write_sched _ _ _ _ h3
  exact e3.trans (e2.trans e1)

theorem pageLoop_sched : ∀ (n i p : Nat) (s s1 : Driver), pageLoop n i p s = some s1 →
    sched s1 = sched s := by
  intro n
  induction n with
  | zero =>
    intro i p s s1 h
    simp only [pageLoop, Option.some.injEq] at h
    rw [h]
  | succ n ih =>
    intro i p s s1 h
    rw [pageLoop] at h
    split at h
    · exact absurd h (by simp)
    · next s2 h2 => exact (ih _ _ _ _ h).trans (pageBody_sched _ _ _ _ h2)

/-- Whatever the buffers look like, a run of `dogm128_update` that completes keeps
the gate flag, and either keeps the work-queue fields or makes exactly one call of
`dogm128_queue` with the gate held. -/
theorem update_sched (s s1 : Driver) (h : dogm128_update s = some s1) :
    s1.dogm128_updating = s.dogm128_updating ∧
    ((s1.work_pending = s.work_pending ∧ s1.queue_calls = s.queue_calls) ∨
     (s.dogm128_updating ≠ 0 ∧ s1.work_pending = true ∧ s1.queue_calls = s.queue_calls + 1)) := by
  unfold dogm128_update at h
  split at h
  · simp only [Option.some.injEq] at h
    subst h
    exact ⟨rfl, Or.inl ⟨rfl, rfl⟩⟩
  · split at h
    · exact absurd h (by simp)
    · next chg _ =>
      have key : ∀ s2 : Driver, sched s2 = sched s →
          (if s2.dogm128_updating ≠ 0 then some (dogm128_queue s2) else some s2) = some s1 →
          s1.dogm128_updating = s.dogm128_updating ∧
          ((s1.work_pending = s.work_pending ∧ s1.queue_calls = s.queue_calls) ∨
           (s.dogm128_updating ≠ 0 ∧ s1.work_pending = true ∧
             s1.queue_calls = s.queue_calls + 1)) := by
        intro s2 hs h2
        simp only [sched, Prod.mk.injEq] at hs
        obtain ⟨hu, hp, hq⟩ := hs
        split at h2
        · next hne =>
          simp only [Option.some.injEq] at h2
          subst h2
          refine ⟨hu, Or.inr ⟨hu ▸ hne, rfl, ?_⟩⟩
          simp [dogm128_queue, hq]
        · simp only [Option.some.injEq] at h2
          subst h2
          exact ⟨hu, Or.inl ⟨hp, hq⟩⟩
      cases chg with
      | false => exact key s rfl (by simpa using h)
      | true =>
        simp only [if_true] at h
        split at h
        · exact absurd h (by simp)
        · next s2 hsent =>
          split at hsent
          · exact absurd hsent (by simp)
          · next s3 hl =>
            split at hsent
            · exact absurd hsent (by simp)
            · next c _ =>
              simp only [Option.some.injEq] at hsent
              subst hsent
              exact key { s3 with dogm128_cache := c } (pageLoop_sched _ _ _ s s3 hl) h

/-! ## Gate and scheduler -/

/-- C3 (enable is a check-and-set).  In every state: when the gate flag is 0,
`dogm128_enable` returns 0, sets the flag to 1, makes one call of `dogm128_queue`
(after which a wakeup is pending) and changes nothing else; when the flag is not 0
it returns a non-zero value and leaves the state as it is.  So from a free gate a
first call succeeds and a second call in a row is refused without effect. -/
theorem enable_check_and_set (s : Driver) :
    (s.dogm128_updating = 0 →
      dogm128_enable s =
        (0, { s with dogm128_updating := 1, work_pending := true,
                     queue_calls := s.queue_calls + 1 })) ∧
    (s.dogm128_updating ≠ 0 → (dogm128_enable s).1 ≠ 0 ∧ (dogm128_enable s).2 = s) ∧
    (s.dogm128_updating = 0 →
      (dogm128_enable s).1 = 0 ∧
      (dogm128_enable (dogm128_enable s).2).1 ≠ 0 ∧
      (dogm128_enable (dogm128_enable s).2).2 = (dogm128_enable s).2) := by
  refine ⟨fun h => ?_, fun h => ?_, fun h => ?_⟩
  · simp [dogm128_enable, dogm128_queue, h]
  · simp [dogm128_enable, h]
  · simp [dogm128_enable, dogm128_queue, h]

/-- Witness of C3 on `sampleIdle`, whose gate is free. -/
theorem enable_check_and_set_witness :
    sampleIdle.dogm128_updating = 0 ∧
    (dogm128_enable sampleIdle).1 = 0 ∧
    (dogm128_enable (dogm128_enable sampleIdle).2).1 ≠ 0 ∧
    (dogm128_enable (dogm128_enable sampleIdle).2).2 = (dogm128_enable sampleIdle).2 :=
  ⟨rfl, (enable_check_and_set sampleIdle).2.2 rfl⟩

theorem step_pendingOnlyIfHeld (s s1 : Driver) (op : Op) (hi : PendingOnlyIfHeld s)
    (h : step s op = some s1) : PendingOnlyIfHeld s1 := by
  cases op with
  | enable =>
    simp only [step, Option.some.injEq] at h
    subst h
    unfold dogm128_enable
    split
    · intro _; simp [dogm128_queue]
    · exact hi
  | disable =>
    simp only [step, Option.some.injEq] at h
    subst h
    unfold dogm128_disable
    split
    · intro hp; simp [cancel_delayed_work] at hp
    · exact hi
  | pass =>
    simp only [step, fire] at h
    split at h
    · obtain ⟨hu, hq⟩ := update_sched _ _ h
      simp only at hu hq
      intro hp
      rcases hq with ⟨hq, _⟩ | ⟨hq, _, _⟩
      · rw [hq] at hp; exact absurd hp (by simp)
      · rw [hu]; exact hq
    · exact absurd h (by simp)

theorem runOps_pendingOnlyIfHeld : ∀ (ops : List Op) (s s1 : Driver), PendingOnlyIfHeld s →
    runOps ops s = some s1 → PendingOnlyIfHeld s1 := by
  intro ops
  induction ops with
  | nil =>
    intro s s1 hi h
    simp only [runOps, Option.some.injEq] at h
    exact h ▸ hi
  | cons op ops ih =>
    intro s s1 hi h
    rw [runOps] at h
    split at h
    · exact absurd h (by simp)
    · next s2 h2 => exact ih s2 s1 (step_pendingOnlyIfHeld s s2 op hi h2) h

theorem runOps_quiet : ∀ (ops : List Op) (s t : Driver), s.dogm128_updating = 0 →
    s.work_pending = false → Op.enable ∉ ops → runOps ops s = some t → t = s := by
  intro ops
  induction ops with
  | nil =>
    intro s t _ _ _ h
    simp only [runOps, Option.some.injEq] at h
    exact h.symm
  | cons op ops ih =>
    intro s t hu hp hne h
    have hop : op ≠ Op.enable := fun e => hne (e ▸ List.mem_cons_self _ _)
    have hops : Op.enable ∉ ops := fun e => hne (List.mem_cons_of_mem _ e)
    rw [runOps] at h
    cases op with
    | enable => exact absurd rfl hop
    | disable =>
      have hd : dogm128_disable s = s := by simp [dogm128_disable, hu]
      simp only [step, hd] at h
      exact ih s t hu hp hops h
    | pass =>
      simp [step, fire, hp] at h

/-- C8 (disable stops the scheduler).  In the step model (enable, disable, pass;
a pass fires only when a wakeup is pending), every state reachable from an initial
state satisfies: a wakeup is pending only if the gate is held.  After
`dogm128_disable` the gate is free, no wakeup is pending and the bus log is as it
was; hence no pass can fire, and every run made of disable and pass steps only from
there leaves the state, the bus log included, as it is.  When the gate is already
free, `dogm128_disable` changes nothing. -/
theorem disable_stops_scheduler (s : Driver) (hr : Reachable s) :
    PendingOnlyIfHeld s ∧
    (dogm128_disable s).dogm128_updating = 0 ∧
    (dogm128_disable s).work_pending = false ∧
    (dogm128_disable s).bus = s.bus ∧
    step (dogm128_disable s) Op.pass = none ∧
    (∀ ops t, Op.enable ∉ ops → runOps ops (dogm128_disable s) = some t →
      t = dogm128_disable s ∧ t.bus = s.bus) ∧
    (s.dogm128_updating = 0 → dogm128_disable s = s) := by
  obtain ⟨s0, ops, ⟨hu0, hp0⟩, hrun⟩ := hr
  have hinv : PendingOnlyIfHeld s :=
    runOps_pendingOnlyIfHeld ops s0 s (fun hp => by rw [hp0] at hp; exact absurd hp (by simp)) hrun
  have hfree : (dogm128_disable s).dogm128_updating = 0 := by
    unfold dogm128_disable
    split
    · rfl
    · next h => simpa using h
  have hidle : (dogm128_disable s).work_pending = false := by
    unfold dogm128_disable
    split
    · rfl
    · next h =>
      have h0 : s.dogm128_updating = 0 := by simpa using h
      by_contra hp
      exact hinv (by simpa using hp) h0
  have hbus : (dogm128_disable s).bus = s.bus := by
    unfold dogm128_disable
    split <;> rfl
  refine ⟨hinv, hfree, hidle, hbus, ?_, ?_, ?_⟩
  · simp [step, fire, hidle]
  · intro ops1 t hne h
    have ht := runOps_quiet ops1 _ t hfree hidle hne h
    exact ⟨ht, ht ▸ hbus⟩
  · intro h
    simp [dogm128_disable, h]

/-- Witness of C8 on the state reached from `sampleIdle` by one `dogm128_enable`:
the gate is held and a wakeup is pending; after `dogm128_disable` neither is. -/
theorem disable_stops_scheduler_witness :
    Reachable (dogm128_enable sampleIdle).2 ∧
    (dogm128_enable sampleIdle).2.dogm128_updating = 1 ∧
    (dogm128_enable sampleIdle).2.work_pending = true ∧
    (dogm128_disable (dogm128_enable sampleIdle).2).dogm128_updating = 0 ∧
    (dogm128_disable (dogm128_enable sampleIdle).2).work_pending = false ∧
    step (dogm128_disable (dogm128_enable sampleIdle).2) Op.pass = none :=
  have hr : Reachable (dogm128_enable sampleIdle).2 :=
    ⟨sampleIdle, [Op.enable], ⟨rfl, rfl⟩, rfl⟩
  have h := disable_stops_scheduler (dogm128_enable sampleIdle).2 hr
  ⟨hr, rfl, rfl, h.2.1, h.2.2.1, h.2.2.2.2.1⟩

theorem rearm_queue_calls (s : Driver) :
    (rearm s).queue_calls = s.queue_calls + (if s.dogm128_updating ≠ 0 then 1 else 0) := by
  unfold rearm dogm128_queue
  split <;> rfl

theorem rearm_work_pending (s : Driver) :
    (rearm s).work_pending = (if s.dogm128_updating ≠ 0 then true else s.work_pending) := by
  unfold rearm dogm128_queue
  split <;> rfl

theorem update_attached (s : Driver) (hw : WellFormed s) (hd : s.spi_device ≠ none) :
    ∃ s2, dogm128_update s = some (rearm s2) ∧ s2.dogm128_updating = s.dogm128_updating ∧
      s2.work_pending = s.work_pending ∧ s2.queue_calls = s.queue_calls := by
  by_cases hc : changed s = true
  · exact ⟨transmitted s, update_dirty s hw hd hc, rfl, rfl, rfl⟩
  · exact ⟨s, update_clean s hw hd (by simpa using hc), rfl, rfl, rfl⟩

/-- C9 (re-arm rule).  A run of `dogm128_update` with a device attached, dirty or
clean, keeps the gate flag and makes one call of `dogm128_queue` when the flag is
non-zero at the end and none when it is zero; so after a pass that started by
consuming its wakeup, a wakeup is pending exactly when the gate is held. -/
theorem rearm_rule (s : Driver) (hw : WellFormed s) (hd : s.spi_device ≠ none) :
    ∃ s1, dogm128_update s = some s1 ∧
      s1.dogm128_updating = s.dogm128_updating ∧
      (s1.queue_calls = s.queue_calls + 1 ↔ s1.dogm128_updating ≠ 0) ∧
      (s1.queue_calls = s.queue_calls ↔ s1.dogm128_updating = 0) ∧
      s1.queue_calls ≤ s.queue_calls + 1 ∧
      (s.work_pending = false → (s1.work_pending = true ↔ s1.dogm128_updating ≠ 0)) := by
  obtain ⟨s2, h, hu, hp, hq⟩ := update_attached s hw hd
  refine ⟨_, h, ?_, ?_, ?_, ?_, ?_⟩
  · rw [rearm_updating, hu]
  · rw [rearm_updating, rearm_queue_calls, hq]
    by_cases h0 : s2.dogm128_updating = 0 <;> simp [h0]
  · rw [rearm_updating, rearm_queue_calls, hq]
    by_cases h0 : s2.dogm128_updating = 0 <;> simp [h0]
  · rw [rearm_queue_calls, hq]
    by_cases h0 : s2.dogm128_updating = 0 <;> simp [h0]
  · intro hs
    rw [rearm_updating, rearm_work_pending, hp, hs]
    by_cases h0 : s2.dogm128_updating = 0 <;> simp [h0]

/-- Witness of C9 on `sampleDirty`, whose gate is held. -/
theorem rearm_rule_witness :
    WellFormed sampleDirty ∧ sampleDirty.spi_device ≠ none ∧
    ∃ s1, dogm128_update sampleDirty = some s1 ∧ s1.dogm128_updating = 1 ∧
      s1.queue_calls ≤ 1 := by
  refine ⟨sampleDirty_wf, sampleDirty_attached, ?_⟩
  obtain ⟨s1, h1, h2, _, _, h5, _⟩ := rearm_rule sampleDirty sampleDirty_wf sampleDirty_attached
  exact ⟨s1, h1, h2, h5⟩

/-- C10 (index safety).  Every bitmap index the pass reads, `128 * p + 16 * j + k / 8`
for a page `p < 8`, a row `j < 8` and a column `k < 128`, is below `DOGM_RAM_SIZE`;
every scratch index it writes (0 and 1 for commands, `k` for data) is below
`USER_BUFF_SIZE`; and on every initialised driver no checked access of
`dogm128_update` fails. -/
theorem index_safety :
    pageCount = 8 ∧
    (∀ p j k, p < pageCount → j < 8 → k < DOGM_RES_X →
      DOGM_RES_X * p + (j * DOGM_RES_X / 8 + k / 8) < DOGM_RAM_SIZE ∧ k < USER_BUFF_SIZE) ∧
    0 < USER_BUFF_SIZE ∧ 1 < USER_BUFF_SIZE ∧
    (∀ s, WellFormed s → (dogm128_update s).isSome = true) := by
  refine ⟨by decide, ?_, by decide, by decide, ?_⟩
  · intro p j k hp hj hk
    have h8 : pageCount = 8 := by decide
    simp only [DOGM_RES_X, DOGM_RAM_SIZE, DOGM_RES_Y, USER_BUFF_SIZE, h8] at *
    omega
  · intro s hw
    by_cases hd : s.spi_device = none
    · rw [update_absent s hd]; rfl
    · obtain ⟨s2, h, _⟩ := update_attached s hw hd
      rw [h]; rfl

/-- Witness of C10 on page 7, row 7, column 127 (the last byte of the frame) and on
`sampleDirty`. -/
theorem index_safety_witness :
    DOGM_RES_X * 7 + (7 * DOGM_RES_X / 8 + 127 / 8) < DOGM_RAM_SIZE ∧
    WellFormed sampleDirty ∧ (dogm128_update sampleDirty).isSome = true :=
  ⟨(index_safety.2.1 7 7 127 (by decide) (by decide) (by decide)).1, sampleDirty_wf,
    index_safety.2.2.2.2 sampleDirty sampleDirty_wf⟩

/-- The checks of the embedding are real: a read past the end of the bitmap makes
the column loop fail. -/
theorem colLoop_out_of_range (buf ub : List Nat) (p j n k : Nat)
    (h : buf.length ≤ p + (j * DOGM_RES_X / 8 + k / 8)) :
    colLoop buf p j (n + 1) k ub = none := by
  rw [colLoop, List.getElem?_eq_none h]

/-! ## Bus errors and an absent device -/

theorem sampleFailing_wf : WellFormed sampleFailing := sampleDirty_wf

theorem sampleFailing_attached : sampleFailing.spi_device ≠ none := sampleDirty_attached

theorem sampleFailing_dirty :
    frame sampleFailing.dogm128_cache ≠ frame sampleFailing.dogm128_buffer := sampleDirty_dirty

/-- Counterexample to C6 as stated.  On `sampleFailing` the tenth bus write, the
page-select of page 3, returns -5.  The pass nevertheless issues the twelve writes
of the pages 4 to 7 and commits: the cache changes, its frame equals the bitmap
frame and `changed` is false, so the next pass transmits nothing. -/
theorem bus_error_counterexample :
    ∃ s1, dogm128_update sampleFailing = some s1 ∧
      (writes (passEvents sampleFailing s1)).getD 9 [] = [0xB3] ∧
      (statuses (passEvents sampleFailing s1)).getD 9 0 = -5 ∧
      (writes (passEvents sampleFailing s1)).drop 12 =
        (([4, 5, 6, 7].map (spec_page_writes sampleFailing.dogm128_buffer)).flatten) ∧
      s1.dogm128_cache ≠ sampleFailing.dogm128_cache ∧
      frame s1.dogm128_cache = frame sampleFailing.dogm128_buffer ∧
      changed s1 = false := by
  have hw := sampleFailing_wf
  refine ⟨_, update_dirty sampleFailing hw sampleFailing_attached
    (changed_of_ne _ sampleFailing_dirty), ?_⟩
  have hcommit : frame (rearm (transmitted sampleFailing)).dogm128_cache =
      frame sampleFailing.dogm128_buffer := by
    rw [rearm_cache]; exact frame_commit _ _ hw.2.1
  rw [passEvents_transmitted, writes_passTraffic, statuses_passTraffic]
  refine ⟨rfl, rfl, rfl, ?_, hcommit, changed_transmitted _ hw⟩
  intro h
  rw [h] at hcommit
  exact sampleFailing_dirty hcommit

/-- C6 as amended (a bus error does not abort the pass).  In a dirty pass with a
device attached in which some bus write returns an error, `dogm128_update` still
issues all 24 writes of the pages 0 to 7 in order, each with the return code the
transport gave, and commits the cache; the next pass on the unmodified bitmap
writes nothing. -/
theorem bus_error_ignored (s : Driver) (n : Nat) (hw : WellFormed s)
    (hd : s.spi_device ≠ none) (hc : frame s.dogm128_cache ≠ frame s.dogm128_buffer)
    (hn : n < 24) (herr : s.spi_status.getD n 0 < 0) :
    ∃ s1 s2, dogm128_update s = some s1 ∧
      writes (passEvents s s1) =
        ((List.range 8).map (spec_page_writes s.dogm128_buffer)).flatten ∧
      statuses (passEvents s s1) = (List.range 24).map (fun i => s.spi_status.getD i 0) ∧
      (statuses (passEvents s s1)).getD n 0 < 0 ∧
      frame s1.dogm128_cache = frame s.dogm128_buffer ∧
      dogm128_update s1 = some s2 ∧ s2.bus = s1.bus ∧
      s2.dogm128_cache = s1.dogm128_cache := by
  have hw1 := wellFormed_transmitted s hw
  have hd1 : (rearm (transmitted s)).spi_device ≠ none := by
    rw [rearm_spi_device]; exact hd
  refine ⟨_, _, update_dirty s hw hd (changed_of_ne s hc), ?_, ?_, ?_, ?_,
    update_clean _ hw1 hd1 (changed_transmitted s hw), rearm_bus _, rearm_cache _⟩
  · rw [passEvents_transmitted, writes_passTraffic]
  · rw [passEvents_transmitted, statuses_passTraffic]
  · rw [passEvents_transmitted, statuses_passTraffic]
    simpa [List.getD_eq_getElem?_getD, List.getElem?_range hn] using herr
  · rw [rearm_cache]; exact frame_commit _ _ hw.2.1

/-- Witness of the amended C6 on `sampleFailing`, whose tenth write fails. -/
theorem bus_error_ignored_witness :
    WellFormed sampleFailing ∧ sampleFailing.spi_device ≠ none ∧
    frame sampleFailing.dogm128_cache ≠ frame sampleFailing.dogm128_buffer ∧
    sampleFailing.spi_status.getD 9 0 < 0 ∧
    ∃ s1 s2, dogm128_update sampleFailing = some s1 ∧
      (writes (passEvents sampleFailing s1)).length = 24 ∧
      frame s1.dogm128_cache = frame sampleFailing.dogm128_buffer ∧
      dogm128_update s1 = some s2 ∧ s2.bus = s1.bus := by
  have herr : sampleFailing.spi_status.getD 9 0 < 0 := by decide
  refine ⟨sampleFailing_wf, sampleFailing_attached, sampleFailing_dirty, herr, ?_⟩
  obtain ⟨s1, s2, h1, h2, _, _, h5, h6, h7, _⟩ :=
    bus_error_ignored sampleFailing 9 sampleFailing_wf sampleFailing_attached
      sampleFailing_dirty (by decide) herr
  exact ⟨s1, s2, h1, by rw [h2]; exact spec_page_writes_length _, h5, h6, h7⟩

/-- C7 at the failing input.  On `sampleAbsent` (no device attached) a call of
`dogm128_enable` queues the first wakeup; the pass that it fires returns at once:
no bus activity, cache untouched, gate still held, and no call of `dogm128_queue`,
so no wakeup is pending and no further pass can fire. -/
theorem absent_device_not_rearmed :
    sampleAbsent.spi_device = none ∧
    ∃ s1 s2, step sampleAbsent Op.enable = some s1 ∧
      s1.dogm128_updating = 1 ∧ s1.work_pending = true ∧
      step s1 Op.pass = some s2 ∧
      s2.bus = [] ∧ s2.dogm128_cache = sampleAbsent.dogm128_cache ∧
      s2.dogm128_updating = 1 ∧
      s2.queue_calls = s1.queue_calls ∧ s2.work_pending = false ∧
      step s2 Op.pass = none :=
  ⟨rfl, (dogm128_enable sampleAbsent).2,
    { (dogm128_enable sampleAbsent).2 with work_pending := false },
    rfl, rfl, rfl, rfl, rfl, rfl, rfl, rfl, rfl, rfl⟩

end Dogm128
